import Mathlib

/-!
Shallow Lean embedding of the `tornado_helpers` repository:
  * `src/base/managers.py`       — `MotorModelManager`, `Queryset`
  * `src/contrib/base/handlers.py` — `MongoAPIMixin`, `ModelAPIView`

Python's dynamically-typed JSON-like values are embedded as the inductive
type `Value`; Python dicts keep insertion order, so documents and query
filters are association lists.  The MongoDB collection itself is out of
scope of the repository and is modelled as an in-memory list of documents
with the standard single-collection semantics of the driver calls the code
makes (`count_documents`, `find`, `find_one`, `insert_one`, `update_one`,
`update_many`, `delete_one`).  Exceptions are modelled with `Except`.
-/

namespace TornadoHelpers

/-- Embedding of the Python/JSON/BSON values that flow through the code:
`None`, `int`, `str`, `bson.ObjectId` (carried as its 24-hex-digit lowercase
textual form), lists and nested documents (dicts). -/
inductive Value where
  | vnone : Value
  | vint (n : Int) : Value
  | vstr (s : String) : Value
  | voidv (hex : String) : Value
  | vlist (vs : List Value) : Value
  | vdoc (fields : List (String × Value)) : Value
deriving Repr

mutual

/-- Structural equality of embedded values, the model of Python `==` (and of
the equality MongoDB applies when matching a filter value against a document
field). -/
def valueBEq : Value → Value → Bool
  | .vnone, .vnone => true
  | .vint a, .vint b => a == b
  | .vstr a, .vstr b => a == b
  | .voidv a, .voidv b => a == b
  | .vlist a, .vlist b => valueListBEq a b
  | .vdoc a, .vdoc b => valueFieldsBEq a b
  | _, _ => false

/-- Elementwise equality of embedded value lists. -/
def valueListBEq : List Value → List Value → Bool
  | [], [] => true
  | x :: xs, y :: ys => valueBEq x y && valueListBEq xs ys
  | _, _ => false

/-- Elementwise equality of embedded dicts (key and value, in order). -/
def valueFieldsBEq : List (String × Value) → List (String × Value) → Bool
  | [], [] => true
  | (k, v) :: xs, (l, w) :: ys => k == l && valueBEq v w && valueFieldsBEq xs ys
  | _, _ => false

end

/-- A Python dict with string keys (document, query filter, JSON object),
in insertion order; keys are unique in any dict the code builds. -/
abbrev Doc := List (String × Value)

/-- A MongoDB query filter is such a dict as well. -/
abbrev Filter := Doc

/-- First-occurrence lookup, the semantics of `d[k]` / `d.get(k)` on a dict
embedded as an association list. -/
def dictGet (d : Doc) (k : String) : Option Value :=
  match d with
  | [] => none
  | (k', v) :: rest => if k' = k then some v else dictGet rest k

/-- In-place update `d[k] = v` of an existing key: the value at the first
occurrence of `k` is replaced, insertion order is preserved; if `k` is
absent the pair is appended (dict insertion). -/
def dictSet (d : Doc) (k : String) (v : Value) : Doc :=
  match d with
  | [] => [(k, v)]
  | (k', v') :: rest => if k' = k then (k, v) :: rest else (k', v') :: dictSet rest k v

/-- Removal `d.pop(k, default)` of a key from a dict, keeping order. -/
def dictErase (d : Doc) (k : String) : Doc :=
  match d with
  | [] => []
  | (k', v') :: rest => if k' = k then rest else (k', v') :: dictErase rest k

/-- Python truthiness of an embedded value: `None`, `0`, the empty string,
the empty list and the empty dict are falsy, everything else is truthy;
a `bson.ObjectId` object is an ordinary object and hence truthy. -/
def pyTruthy : Value → Bool
  | .vnone => false
  | .vint n => n ≠ 0
  | .vstr s => s ≠ ""
  | .voidv _ => true
  | .vlist vs => !vs.isEmpty
  | .vdoc d => !d.isEmpty

/-- Surrounding-whitespace stripping on a character list (what Python's
`int(str)` does before parsing). -/
def stripWs (cs : List Char) : List Char :=
  ((cs.dropWhile Char.isWhitespace).reverse.dropWhile Char.isWhitespace).reverse

/-- Python's `str.split(',')` on a character list: the separator cuts the
list into (possibly empty) pieces; an empty input yields one empty piece. -/
def splitCommaAux (acc : List Char) : List Char → List (List Char)
  | [] => [acc.reverse]
  | c :: rest =>
    if c = ',' then acc.reverse :: splitCommaAux [] rest
    else splitCommaAux (c :: acc) rest

/-- Python's `str.split(',')` on a string. -/
def pySplitComma (s : String) : List String :=
  (splitCommaAux [] s.data).map (fun cs => ⟨cs⟩)

/-- Python's `str.replace('__', '.')` on a character list: left-to-right,
non-overlapping occurrences of `__` become `.`. -/
def replaceDunder : List Char → List Char
  | [] => []
  | '_' :: '_' :: rest => '.' :: replaceDunder rest
  | c :: rest => c :: replaceDunder rest

/-- Python's `key.replace('__', '.')` on a string. -/
def pyReplaceDunder (s : String) : String := ⟨replaceDunder s.data⟩

/-- ASCII lowercasing of a string (`str(ObjectId(...))` normalises the hex
digits to lowercase). -/
def lowerAscii (s : String) : String := ⟨s.data.map Char.toLower⟩

/-- Decimal-digit run to a natural number; `none` on an empty or non-digit
run.  Used to model Python's `int(str)`. -/
def digitsToNat : List Char → Option Nat
  | [] => none
  | cs =>
    if cs.all Char.isDigit then
      some (cs.foldl (fun acc c => acc * 10 + (c.toNat - ('0').toNat)) 0)
    else none

/-- Model of Python's `int(s)` on strings in the common decimal case:
surrounding whitespace is stripped, an optional single `+`/`-` sign is
accepted, and the rest must be a non-empty run of ASCII decimal digits;
`none` models the `ValueError` that `int` raises otherwise. -/
def pythonInt (s : String) : Option Int :=
  match stripWs s.data with
  | [] => none
  | c :: rest =>
    if c = '+' then (digitsToNat rest).map Int.ofNat
    else if c = '-' then (digitsToNat rest).map (fun n => -(n : Int))
    else (digitsToNat (c :: rest)).map Int.ofNat

/-- A 24-character hexadecimal character. -/
def isHexChar (c : Char) : Bool :=
  c.isDigit || ('a' ≤ c && c ≤ 'f') || ('A' ≤ c && c ≤ 'F')

/-- Validity of the textual form of a `bson.ObjectId`: exactly 24
hexadecimal characters (`bson.ObjectId(str)` raises `InvalidId` on
anything else). -/
def isValidOidString (s : String) : Bool :=
  s.length = 24 && s.data.all isHexChar

/-- The exceptions the embedded code can raise besides Tornado's `Finish`
(which is modelled separately, as it carries a finished HTTP response):
`bson.errors.InvalidId`, `TypeError`, `ValueError` and the pagination
module's `EmptyPage`. -/
inductive PyError where
  | invalidId : PyError
  | typeErr : PyError
  | valueErr : PyError
  | emptyPage : PyError
deriving Repr, DecidableEq

/-- Model of the `bson.ObjectId` constructor applied to an embedded value:
a valid 24-hex string yields the ObjectId (textual form normalised to
lowercase, as `str(ObjectId(s))` would return); an existing ObjectId is
accepted unchanged; any other string raises `InvalidId`; a non-string,
non-ObjectId argument raises `TypeError`. -/
def objectIdOf : Value → Except PyError Value
  | .vstr s => if isValidOidString s then .ok (.voidv (lowerAscii s)) else .error .invalidId
  | .voidv h => .ok (.voidv h)
  | _ => .error .typeErr

/-! ## The collection

The MongoDB collection behind `MotorModelManager` is external to the
repository; it is modelled as an in-memory list of documents with the
driver-call semantics the manager relies on.  Filter matching is plain
field equality (the only filter shape the repository builds); the richer
Mongo operator language is out of the repository's scope. -/

/-- A collection's contents, in natural (insertion) order. -/
abbrev Store := List Doc

/-- A document matches a filter when every filter key is present in the
document with an equal value. -/
def docMatches (queryFilter : Filter) (d : Doc) : Bool :=
  queryFilter.all fun kv =>
    match dictGet d kv.1 with
    | some v => valueBEq v kv.2
    | none => false

/-- Model of `collection.count_documents(filter)`: the number of matching
documents, unaffected by any cursor option. -/
def countDocuments (store : Store) (queryFilter : Filter) : Nat :=
  (store.filter (docMatches queryFilter)).length

/-- Rank used to order values of different BSON types under sorting; the
exact cross-type order of the database is immaterial to the repository, a
fixed total rank stands in for it. -/
def valueRank : Value → Nat
  | .vnone => 0
  | .vint _ => 1
  | .vstr _ => 2
  | .voidv _ => 3
  | .vlist _ => 4
  | .vdoc _ => 5

/-- Comparison of two values for the database's sort: scalars compare by
their contents, values of different kinds by rank; composite values of the
same kind are treated as equal (the repository never sorts by a composite
field, so that corner of the external database is abstracted). -/
def cmpValue (a b : Value) : Ordering :=
  match a, b with
  | .vint x, .vint y => compare x y
  | .vstr x, .vstr y => compare x y
  | .voidv x, .voidv y => compare x y
  | _, _ => compare (valueRank a) (valueRank b)

/-- Comparison of sort-key values where a missing field sorts like null,
below every present value. -/
def cmpOptValue : Option Value → Option Value → Ordering
  | none, none => .eq
  | none, some _ => .lt
  | some _, none => .gt
  | some x, some y => cmpValue x y

/-- Whether document `a` strictly precedes document `b` under a sort on
`key` with direction `dir` (`1` ascending, `-1` = `pymongo.DESCENDING`). -/
def sortPrecedes (key : String) (dir : Int) (a b : Doc) : Bool :=
  match cmpOptValue (dictGet a key) (dictGet b key) with
  | .lt => dir ≥ 0
  | .gt => dir < 0
  | .eq => false

/-- Stable insertion of `x` into a list already ordered by `precedes`:
`x` goes before the first element that does not strictly precede it. -/
def insertOrdered (precedes : Doc → Doc → Bool) (x : Doc) : List Doc → List Doc
  | [] => [x]
  | y :: ys => if precedes y x then y :: insertOrdered precedes x ys else x :: y :: ys

/-- Stable sort of the matched documents (insertion sort; ties keep the
collection's natural order, as the database's stable cursor order does). -/
def sortDocsBy (precedes : Doc → Doc → Bool) : List Doc → List Doc
  | [] => []
  | x :: xs => insertOrdered precedes x (sortDocsBy precedes xs)

/-- Cursor sort application: `none` leaves natural order. -/
def applySort (sortSpec : Option (String × Int)) (docs : List Doc) : List Doc :=
  match sortSpec with
  | none => docs
  | some (key, dir) => sortDocsBy (sortPrecedes key dir) docs

/-- Model of the argument check of `cursor.skip(n)`: the driver raises
`TypeError` for a non-int and `ValueError` for a negative int. -/
def cursorSkipArg : Value → Except PyError Nat
  | .vint n => if n < 0 then .error .valueErr else .ok n.toNat
  | _ => .error .typeErr

/-- Model of the argument check of `cursor.limit(n)`: `TypeError` for a
non-int; a negative limit acts as a hard limit of its absolute value. -/
def cursorLimitArg : Value → Except PyError Nat
  | .vint n => .ok n.natAbs
  | _ => .error .typeErr

/-- Exclusion projection `{field: 0 for field in fields}`: the listed
fields are dropped from a returned document. -/
def projectOut (removeFields : List String) (d : Doc) : Doc :=
  if removeFields.isEmpty then d
  else d.filter fun kv => !removeFields.contains kv.1

/-- Cursor limit application. -/
def applyLimit (limit : Option Nat) (docs : List Doc) : List Doc :=
  match limit with
  | none => docs
  | some n => docs.take n

/-- The `if self.skip: cursor.skip(self.skip)` guard: a falsy manager
`skip` leaves the cursor without a skip option, a truthy one must be a
non-negative int. -/
def cursorSkipOpt (v : Value) : Except PyError (Option Nat) :=
  if pyTruthy v then (cursorSkipArg v).map some else pure none

/-- The `if limit: cursor.limit(limit)` guard, for both the call-supplied
and the manager-level limit. -/
def cursorLimitOpt (v : Value) : Except PyError (Option Nat) :=
  if pyTruthy v then (cursorLimitArg v).map some else pure none

mutual

/-- Model of `json.loads(json_util.dumps(v))` on one value: `bson`'s
`json_util` serialises an `ObjectId` as the JSON object
`{"$oid": "<hex>"}`; plain JSON values survive the round trip unchanged. -/
def parseJsonValue : Value → Value
  | .vnone => .vnone
  | .vint n => .vint n
  | .vstr s => .vstr s
  | .voidv h => .vdoc [("$oid", .vstr h)]
  | .vlist vs => .vlist (parseJsonList vs)
  | .vdoc d => .vdoc (parseJsonFields d)

/-- JSON round trip, elementwise on a list. -/
def parseJsonList : List Value → List Value
  | [] => []
  | v :: vs => parseJsonValue v :: parseJsonList vs

/-- JSON round trip, elementwise on a dict's fields. -/
def parseJsonFields : List (String × Value) → List (String × Value)
  | [] => []
  | (k, v) :: d => (k, parseJsonValue v) :: parseJsonFields d

end

/-- JSON round trip of one document (`MotorModelManager._parse_json` on a
single dict). -/
def parseJsonDoc (d : Doc) : Doc := parseJsonFields d

/-! ## `src/base/managers.py` — `MotorModelManager` -/

/-- The payload of a `Queryset`: a list of documents when the manager ran a
many-document `find`, otherwise the at-most-one document of `find_one`
(`none` is Python `None` / JSON `null`). -/
inductive QsValue where
  | many (docs : List Doc) : QsValue
  | single (d : Option Doc) : QsValue
deriving Repr

/-- The `Queryset` result container: `_value` alongside the
total-matching-count. -/
structure Queryset where
  value : QsValue
  total : Nat
deriving Repr

/-- Embedding of `MotorModelManager._convert_id_field`: when the filter's
`_id` value is truthy it is replaced, in the caller's dict, by
`ObjectId(value)`; a missing or falsy `_id` leaves the dict untouched.  The
returned filter is the state of the caller's dict after the call (the
Python code mutates the dict in place and returns the same object). -/
def convertIdField (queryFilter : Filter) : Except PyError Filter :=
  match dictGet queryFilter "_id" with
  | some v =>
    if pyTruthy v then do
      let oid ← objectIdOf v
      pure (dictSet queryFilter "_id" oid)
    else pure queryFilter
  | none => pure queryFilter

/-- Embedding of `MotorModelManager._parse_query_filter` (delegates to
`_convert_id_field`). -/
def parseQueryFilter (queryFilter : Filter) : Except PyError Filter :=
  convertIdField queryFilter

/-- Result of `MotorModelManager.find`: the `Queryset` together with the
final state of the caller's filter dict (mutated in place by
`_convert_id_field`). -/
structure FindResult where
  queryset : Queryset
  filterAfter : Filter
deriving Repr

/-- Embedding of `MotorModelManager.find`.  The manager's `skip` and
`limit` class fields (assigned per request by the handler's `prepare`) are
passed as the values they hold at call time.  Cursor semantics of the
external database: matching documents in natural order are sorted, then
`skip` documents are dropped, then the limit caps the count (the last
`cursor.limit` call wins, so a truthy manager-level `limit` overrides the
call-supplied `limit` argument), then the exclusion projection is applied;
`find_one` returns the first matching document.  `count_documents` uses the
same (converted) filter and no cursor option. -/
def find (store : Store) (mgrSkip mgrLimit : Value) (queryFilter : Filter)
    (many : Bool := true) (sortSpec : Option (String × Int) := some ("_id", -1))
    (removeFields : List String := []) (limitArg : Value := .vnone) :
    Except PyError FindResult := do
  let qf ← parseQueryFilter queryFilter
  let count := countDocuments store qf
  if many then
    let matched := store.filter (docMatches qf)
    let skipN ← cursorSkipOpt mgrSkip
    let limCall ← cursorLimitOpt limitArg
    let limMgr ← cursorLimitOpt mgrLimit
    let results :=
      applyLimit (limMgr <|> limCall)
        ((applySort sortSpec matched).drop (skipN.getD 0))
    let parsed := results.map fun d => parseJsonDoc (projectOut removeFields d)
    pure ⟨⟨.many parsed, count⟩, qf⟩
  else
    let result := (store.filter (docMatches qf)).head?
    let parsed := result.map fun d => parseJsonDoc (projectOut removeFields d)
    pure ⟨⟨.single parsed, count⟩, qf⟩

/-- Result of `MotorModelManager.create`: the document as stored in the
collection and the mapping returned to the caller. -/
structure CreateResult where
  stored : Doc
  returned : Doc
deriving Repr

/-- Embedding of `MotorModelManager.create`.  `modelPrimitive` is
`model_object.to_primitive()` (the model's storage representation, an
opaque capability of the model layer); `generatedId` is the `ObjectId` the
driver generates for the insert.  The code pops any client-supplied `_id`
from the data, inserts it (the driver stamps the generated `_id` onto the
inserted document), then overwrites `data['_id']` with
`str(result.inserted_id)` and returns the mapping. -/
def create (modelPrimitive : Doc) (generatedId : String) : CreateResult :=
  let data := dictErase modelPrimitive "_id"
  let stored := dictSet data "_id" (.voidv generatedId)
  let returned := dictSet data "_id" (.vstr generatedId)
  ⟨stored, returned⟩

/-- Which update operation `MotorModelManager.update` dispatches to. -/
inductive UpdateKind where
  | one : UpdateKind
  | many : UpdateKind
deriving Repr, DecidableEq

/-- The dispatch decision inside `MotorModelManager.update`: after the
payload is rebound to the update document `{"$set": data}`, the code picks
`update_many` when `len(data) > 1` — but `data` now names the wrapped
one-key dict, so the length inspected is that of `[("$set", data)]`. -/
def updateDispatch (data : Doc) : UpdateKind :=
  let wrapped : List (String × Doc) := [("$set", data)]
  if wrapped.length > 1 then .many else .one

/-- Outcome of a driver update call (`UpdateResult`). -/
structure UpdateOutcome where
  matchedCount : Nat
  modifiedCount : Nat
deriving Repr

/-- Outcome of a driver delete call (`DeleteResult`). -/
structure DeleteOutcome where
  deletedCount : Nat
deriving Repr

/-- Field-level `$set` application to one document. -/
def applySet (setFields : Doc) (d : Doc) : Doc :=
  setFields.foldl (fun acc kv => dictSet acc kv.1 kv.2) d

/-- The first matching document updated (`update_one`); ties to natural
order. -/
def storeUpdateOne (store : Store) (queryFilter : Filter) (setFields : Doc) :
    UpdateOutcome × Store :=
  match store with
  | [] => (⟨0, 0⟩, [])
  | d :: rest =>
    if docMatches queryFilter d then
      let d' := applySet setFields d
      (⟨1, if valueFieldsBEq d' d then 0 else 1⟩, d' :: rest)
    else
      let (outcome, rest') := storeUpdateOne rest queryFilter setFields
      (outcome, d :: rest')

/-- Every matching document updated (`update_many`). -/
def storeUpdateMany (store : Store) (queryFilter : Filter) (setFields : Doc) :
    UpdateOutcome × Store :=
  match store with
  | [] => (⟨0, 0⟩, [])
  | d :: rest =>
    let (outcome, rest') := storeUpdateMany rest queryFilter setFields
    if docMatches queryFilter d then
      let d' := applySet setFields d
      (⟨outcome.matchedCount + 1,
        outcome.modifiedCount + if valueFieldsBEq d' d then 0 else 1⟩, d' :: rest')
    else (outcome, d :: rest')

/-- Result of `MotorModelManager.update`: the driver outcome, the new
collection contents, the final state of the caller's filter dict, and
which operation was dispatched. -/
structure UpdateResult where
  outcome : UpdateOutcome
  storeAfter : Store
  filterAfter : Filter
  kind : UpdateKind
deriving Repr

/-- Embedding of `MotorModelManager.update`: the filter's `_id` is
converted, the payload is wrapped as `{"$set": data}`, and the dispatch of
`updateDispatch` decides between `update_one` and `update_many` (the
`update_one` future is simply replaced when the `update_many` branch is
taken). -/
def update (store : Store) (queryFilter : Filter) (data : Doc) :
    Except PyError UpdateResult := do
  let qf ← convertIdField queryFilter
  let kind := updateDispatch data
  let (outcome, store') :=
    match kind with
    | .one => storeUpdateOne store qf data
    | .many => storeUpdateMany store qf data
  pure ⟨outcome, store', qf, kind⟩

/-- Removal of the first matching document (`delete_one`). -/
def storeDeleteOne (store : Store) (queryFilter : Filter) :
    DeleteOutcome × Store :=
  match store with
  | [] => (⟨0⟩, [])
  | d :: rest =>
    if docMatches queryFilter d then (⟨1⟩, rest)
    else
      let (outcome, rest') := storeDeleteOne rest queryFilter
      (outcome, d :: rest')

/-- Result of `MotorModelManager.delete`. -/
structure DeleteResult where
  outcome : DeleteOutcome
  storeAfter : Store
  filterAfter : Filter
deriving Repr

/-- Embedding of `MotorModelManager.delete`: the filter's `_id` is
converted, then `delete_one` removes at most one matching document. -/
def delete (store : Store) (queryFilter : Filter) :
    Except PyError DeleteResult := do
  let qf ← convertIdField queryFilter
  let (outcome, store') := storeDeleteOne store qf
  pure ⟨outcome, store', qf⟩

/-! ## `src/contrib/base/handlers.py` — `MongoAPIMixin` and the views -/

/-- Embedding of the per-value parsing step of
`MongoAPIMixin.extract_query_args`: the decoded query argument is split on
commas; the `try` block converts every element with `int` — on success a
singleton collapses to the single integer, otherwise the list of integers
is kept; on `ValueError` a singleton collapses to the single original
string, otherwise the list of original strings is kept. -/
def parseQueryValue (raw : String) : Value :=
  let parts := pySplitComma raw
  match parts.mapM pythonInt with
  | some ns =>
    match ns with
    | [n] => .vint n
    | _ => .vlist (ns.map Value.vint)
  | none =>
    match parts with
    | [s] => .vstr s
    | _ => .vlist (parts.map Value.vstr)

/-- Embedding of `MongoAPIMixin.extract_query_args`.  Tornado's
`request.query_arguments` maps each key to the list of byte values supplied
for it, in insertion order; the code takes `list_data.pop()`, the last
value, decodes it, parses it with the comma/int rules, and stores it under
the key with every `__` replaced by `.`. -/
def extract_query_args (rawArgs : List (String × List String)) : Filter :=
  rawArgs.foldl
    (fun acc kv =>
      match kv.2.getLast? with
      | none => acc
      | some raw => dictSet acc (pyReplaceDunder kv.1) (parseQueryValue raw))
    []

/-- Removal with default, `d.pop(k, default)`: the value (or the default
when the key is absent) together with the dict without the key. -/
def dictPop (d : Doc) (k : String) (default : Value) : Value × Doc :=
  match dictGet d k with
  | some v => (v, dictErase d k)
  | none => (default, d)

/-- A pluggable collection-level permission check
(`BasePermission`-style, a capability external to `src/`): the outcome of
`has_permission(request, handler)` for the current request and the class
`message` used on failure. -/
structure PermCheck where
  ok : Bool
  message : Value

/-- A pluggable authenticator (`BaseAuthentication`-style): the outcome of
`authenticate(request, handler)` for the current request and the
`unauthorized_message` used on failure. -/
structure Authenticator where
  ok : Bool
  unauthorizedMessage : Value

/-- A pipeline stage observable in the trace of `prepare`: invocation of
the permission check at a given position, or of the authenticator. -/
inductive Stage where
  | permCheck (index : Nat) : Stage
  | authenticate : Stage
deriving Repr, DecidableEq

/-- An HTTP response as produced by `json_response(data, status)` (the
JSON-serialised body and the status code; `json_response` then raises
`Finish`, ending the request). -/
structure HttpResponse where
  body : Value
  status : Nat
deriving Repr

/-- Embedding of `MongoAPIMixin.check_permissions` starting at position
`i`: checks run in list order; the first failure responds with that check's
message and HTTP 403 (raising `Finish`), skipping the remaining checks.
The trace records which checks were invoked. -/
def checkPermissionsFrom (i : Nat) : List PermCheck → List Stage × Option HttpResponse
  | [] => ([], none)
  | p :: rest =>
    if p.ok then
      let (tr, r) := checkPermissionsFrom (i + 1) rest
      (Stage.permCheck i :: tr, r)
    else ([Stage.permCheck i], some ⟨p.message, 403⟩)

/-- Embedding of `MongoAPIMixin.check_authentication`: the authenticator
runs; failure responds with its `unauthorized_message` and HTTP 401
(raising `Finish`). -/
def checkAuthentication (auth : Authenticator) : List Stage × Option HttpResponse :=
  ([Stage.authenticate], if auth.ok then none else some ⟨auth.unauthorizedMessage, 401⟩)

/-- The per-request state `prepare` leaves behind: the residual query
filter and the popped `page` and `page_size` values (which `prepare` also
assigns to the shared manager as `skip` and `limit`). -/
structure PrepareState where
  queryFilter : Filter
  page : Value
  pageSize : Value
deriving Repr

/-- The class attribute `page_size = 20` of `MongoAPIMixin`. -/
def defaultPageSize : Value := .vint 20

/-- Embedding of `MongoAPIMixin.prepare`: query arguments are parsed,
`page` (default `0`) and `page_size` (default the class attribute) are
popped out of the filter and assigned to the manager's `skip` and `limit`
fields, then `check_permissions` runs, then `check_authentication`; a
response raised by either check ends the request (`Finish`) and no later
stage runs.  The returned trace lists the checks actually invoked, in
order. -/
def prepare (rawArgs : List (String × List String)) (auth : Authenticator)
    (perms : List PermCheck) : PrepareState × List Stage × Option HttpResponse :=
  let qf0 := extract_query_args rawArgs
  let (page, qf1) := dictPop qf0 "page" (.vint 0)
  let (pageSize, qf2) := dictPop qf1 "page_size" defaultPageSize
  let st : PrepareState := ⟨qf2, page, pageSize⟩
  let (trP, rP) := checkPermissionsFrom 0 perms
  match rP with
  | some r => (st, trP, some r)
  | none =>
    let (trA, rA) := checkAuthentication auth
    (st, trP ++ trA, rA)

/-- Modelled from the spec: the `Page` object of
`contrib.base.pagination` (whose source is not under `src/`), per §4.2 —
`object_list` is exactly the caller-supplied list, alongside the page
number, the page size and the total count. -/
structure PageObj where
  objectList : List Value
  number : Int
  perPage : Int
  totalCount : Nat
deriving Repr

/-- Modelled from the spec: `Paginator(list, per_page, count).page(number)`
of `contrib.base.pagination`.  §4.2: page numbers are 1-based; page 0 or
negative, or any page number beyond the last page, raises `EmptyPage`; the
returned page does not re-slice the caller-supplied list.  A non-positive
or non-integral page size cannot paginate and fails like `int`/arithmetic
misuse would (`ValueError`/`TypeError`). -/
def paginatorPage (objectList : List Value) (perPage : Value) (count : Nat)
    (number : Int) : Except PyError PageObj :=
  match perPage with
  | .vint n =>
    if n ≤ 0 then .error .valueErr
    else
      let numPages := ((count : Int) + n - 1) / n
      if number < 1 || number > numPages then .error .emptyPage
      else .ok ⟨objectList, number, n, count⟩
  | _ => .error .typeErr

/-- Modelled from the spec: `Page.has_next()` is true iff
`page_number * page_size < total` (§4.2). -/
def pageHasNext (p : PageObj) : Bool :=
  p.number * p.perPage < (p.totalCount : Int)

/-- Modelled from the spec: `Page.next_page_number()`, the following
1-based page number. -/
def pageNextNumber (p : PageObj) : Int := p.number + 1

/-- Modelled from the spec: `Page.previous_page_number()`, defined only
when `page_number > 1` (§4.2); the guard in `paginate_response` ensures
that. -/
def pagePreviousNumber (p : PageObj) : Int := p.number - 1

/-- Model of Python `int(v)` applied to an embedded value: ints pass
through, strings go through decimal parsing (`ValueError` on failure),
anything else is a `TypeError`. -/
def pyIntCoerce : Value → Except PyError Int
  | .vint n => .ok n
  | .vstr s =>
    match pythonInt s with
    | some n => .ok n
    | none => .error .valueErr
  | _ => .error .typeErr

/-- The `if type(data) is not list: data = [data]` step of
`paginate_response`: a `Queryset` payload as the list handed to the
paginator (a single document, or Python `None`, is wrapped in a one-element
list). -/
def qsValueAsList : QsValue → List Value
  | .many docs => docs.map Value.vdoc
  | .single (some d) => [Value.vdoc d]
  | .single none => [Value.vnone]

/-- The response dict `paginate_response` builds.  The code rewrites the
request URI's `page` query parameter into full `next`/`previous` URLs; the
model keeps the page number written into that parameter (`none` is the
JSON `null` used when there is no such page). -/
structure PaginatedResponse where
  count : Nat
  next : Option Int
  previous : Option Int
  results : List Value
deriving Repr

/-- Embedding of `MongoAPIMixin.paginate_response`.  `selfPageSize` is the
handler's `page_size` attribute (rebound by `prepare` to the request's
`page_size`); the `page_size` argument defaults to `None` and a truthy
value overrides the attribute.  Inside the `try` block the payload is
wrapped into a list if needed, `int(current_page)` is taken, and the
paginator produces the page; `EmptyPage` and `ValueError` are caught and
yield empty `results` with `next`/`previous` still `None`; other
exceptions propagate. -/
def paginate_response (qs : Queryset) (selfPageSize : Value)
    (currentPage : Value := .vint 1) (pageSizeArg : Value := .vnone) :
    Except PyError PaginatedResponse :=
  let count := qs.total
  let pageSize := if pyTruthy pageSizeArg then pageSizeArg else selfPageSize
  let attempt : Except PyError (Option Int × Option Int × List Value) := do
    let dataList := qsValueAsList qs.value
    let cp ← pyIntCoerce currentPage
    let paginated ← paginatorPage dataList pageSize count cp
    let next := if pageHasNext paginated then some (pageNextNumber paginated) else none
    let prev := if cp > 1 then some (pagePreviousNumber paginated) else none
    pure (next, prev, paginated.objectList)
  match attempt with
  | .ok (next, prev, results) => .ok ⟨count, next, prev, results⟩
  | .error .emptyPage => .ok ⟨count, none, none, []⟩
  | .error .valueErr => .ok ⟨count, none, none, []⟩
  | .error e => .error e

/-- Embedding of `MongoAPIMixin.get_queryset` followed by
`ModelAPIView.list` after `prepare` has run: the manager's `find` executes
with `skip`/`limit` holding the popped `page`/`page_size`, the default
sort, and the model's public-role fields excluded; the queryset is then
paginated with the *default* `current_page=1` (the call site passes no page
argument) and returned with status 200. -/
def listCore (store : Store) (publicFields : List String) (queryFilter : Filter)
    (page pageSize : Value) : Except PyError (PaginatedResponse × Nat) := do
  let fr ← find store page pageSize queryFilter true (some ("_id", -1)) publicFields .vnone
  let pr ← paginate_response fr.queryset pageSize
  pure (pr, 200)

/-- Outcome of a full `GET` list request: either a check in `prepare`
ended the request with its own response, or the paginated response was
produced. -/
inductive ListOutcome where
  | finished (r : HttpResponse) : ListOutcome
  | page (r : PaginatedResponse) (status : Nat) : ListOutcome
deriving Repr

/-- Embedding of the full list pipeline of `ModelAPIView.get`:
`prepare` (query parsing, `page`/`page_size` popping, permission and
authentication checks), then `list`. -/
def listPipeline (store : Store) (publicFields : List String)
    (rawArgs : List (String × List String)) (auth : Authenticator)
    (perms : List PermCheck) : Except PyError ListOutcome :=
  let (st, _, halt) := prepare rawArgs auth perms
  match halt with
  | some r => .ok (.finished r)
  | none => do
    let (pr, status) := ← listCore store publicFields st.queryFilter st.page st.pageSize
    pure (.page pr status)

/-- Python truthiness of the driver's `DeleteResult` object: the class
defines neither `__bool__` nor `__len__`, so the object is truthy no
matter what `deleted_count` it reports. -/
def deleteResultTruthy (_r : DeleteOutcome) : Bool := true

/-- Embedding of `ModelAPIView.delete`: the manager deletes by
`{"_id": object_id}`; the handler then branches on `if not result:` — the
truthiness of the `DeleteResult` object — answering 400 with an error body
when falsy and otherwise 200 with the identity. -/
def deleteHandler (store : Store) (objectId : String) :
    Except PyError HttpResponse := do
  let dr ← delete store [("_id", .vstr objectId)]
  if !deleteResultTruthy dr.outcome then
    pure ⟨.vdoc [("error", .vlist [.vstr "Não foi possível remover o registro."])], 400⟩
  else
    pure ⟨.vdoc [("_id", .vstr objectId)], 200⟩

/-! ## Concrete fixtures used by witnesses and counterexamples -/

/-- A collection holding 45 documents `{"n": i}` for `i = 0 … 44`. -/
def store45 : Store := (List.range 45).map (fun i => [("n", Value.vint (i : Int))])

/-- An authenticator that accepts the request. -/
def authPass : Authenticator := ⟨true, .vnone⟩

/-- A syntactically valid ObjectId string (24 lowercase hex characters). -/
def sampleOid : String := "0123456789abcdef01234567"

/-- A three-document collection, two of which match `{"a": 1}`. -/
def storeW : Store :=
  [[("a", Value.vint 1)], [("a", Value.vint 1)], [("a", Value.vint 2)]]

/-!
# Theorems

Helper lemmas first, then one theorem per claim (with witnesses and
counterexamples where the claim's status calls for them).
-/

/-- Setting a key makes it readable: the first occurrence of the key in the
dict holds the new value. -/
theorem dictGet_dictSet_self (d : Doc) (k : String) (v : Value) :
    dictGet (dictSet d k v) k = some v := by
  induction d with
  | nil => simp [dictSet, dictGet]
  | cons kv rest ih =>
    obtain ⟨k', v'⟩ := kv
    by_cases h : k' = k
    · simp [dictSet, dictGet, h]
    · simp [dictSet, dictGet, h, ih]

/-- Setting one key leaves every other key's value unchanged. -/
theorem dictGet_dictSet_ne (d : Doc) (k k' : String) (v : Value) (h : k' ≠ k) :
    dictGet (dictSet d k v) k' = dictGet d k' := by
  induction d with
  | nil => simp [dictSet, dictGet, Ne.symm h]
  | cons kv rest ih =>
    obtain ⟨k₀, v₀⟩ := kv
    by_cases h₀ : k₀ = k
    · subst h₀
      have hk : ¬k₀ = k' := fun hh => h hh.symm
      simp [dictSet, dictGet, hk]
    · simp only [dictSet, if_neg h₀, dictGet]
      by_cases h₁ : k₀ = k'
      · simp [h₁]
      · simp [h₁, ih]

/-- Removing one key leaves every other key's value unchanged. -/
theorem dictGet_dictErase_ne (d : Doc) (k k' : String) (h : k' ≠ k) :
    dictGet (dictErase d k) k' = dictGet d k' := by
  induction d with
  | nil => simp [dictErase]
  | cons kv rest ih =>
    obtain ⟨k₀, v₀⟩ := kv
    by_cases h₀ : k₀ = k
    · subst h₀
      have hk : ¬k₀ = k' := fun hh => h hh.symm
      simp [dictErase, dictGet, hk]
    · simp only [dictErase, if_neg h₀, dictGet]
      by_cases h₁ : k₀ = k'
      · simp [h₁]
      · simp [h₁, ih]

/-- A key that occurs nowhere in the dict reads as absent. -/
theorem dictGet_eq_none_of_not_mem (d : Doc) (k : String)
    (h : k ∉ d.map Prod.fst) : dictGet d k = none := by
  induction d with
  | nil => simp [dictGet]
  | cons kv rest ih =>
    obtain ⟨k₀, v₀⟩ := kv
    simp only [List.map_cons, List.mem_cons] at h
    push_neg at h
    have hk : ¬k₀ = k := fun hh => h.1 hh.symm
    simp [dictGet, hk, ih h.2]

/-- On a dict with pairwise-distinct keys (every Python dict), popping a
key really removes it. -/
theorem dictGet_dictErase_self (d : Doc) (k : String)
    (hnd : (d.map Prod.fst).Nodup) : dictGet (dictErase d k) k = none := by
  induction d with
  | nil => simp [dictErase, dictGet]
  | cons kv rest ih =>
    obtain ⟨k₀, v₀⟩ := kv
    simp only [List.map_cons, List.nodup_cons] at hnd
    by_cases h₀ : k₀ = k
    · subst h₀
      simpa [dictErase] using dictGet_eq_none_of_not_mem rest k₀ hnd.1
    · simp [dictErase, h₀, dictGet, ih hnd.2]

/-- A truthy string `_id` goes through the `ObjectId` constructor:
`_convert_id_field` either replaces it in place or propagates the
constructor's exception. -/
theorem convertIdField_truthy (qf : Filter) (s : String)
    (h : dictGet qf "_id" = some (.vstr s)) (hs : s ≠ "") :
    convertIdField qf =
      (objectIdOf (.vstr s)).map (fun oid => dictSet qf "_id" oid) := by
  simp only [convertIdField, h]
  have ht : pyTruthy (.vstr s) = true := by simp [pyTruthy, hs]
  rw [ht]
  simp only [if_true]
  cases hv : objectIdOf (Value.vstr s) with
  | ok oid => simp [hv, Except.map, bind, Except.bind, pure, Except.pure]
  | error e => simp [hv, Except.map, bind, Except.bind, pure, Except.pure]

/-- A falsy `_id` value (empty string, `0`, `None`, …) short-circuits the
truthiness guard of `_convert_id_field`: the filter comes back untouched. -/
theorem convertIdField_falsy (qf : Filter) (v : Value)
    (h : dictGet qf "_id" = some v) (hv : pyTruthy v = false) :
    convertIdField qf = .ok qf := by
  simp [convertIdField, h, hv, pure, Except.pure]

/-- A filter with no `_id` key is left untouched by `_convert_id_field`. -/
theorem convertIdField_absent (qf : Filter)
    (h : dictGet qf "_id" = none) : convertIdField qf = .ok qf := by
  simp [convertIdField, h, pure, Except.pure]

/-- An exception from the id conversion propagates out of `find`. -/
theorem find_err (store : Store) (mgrSkip mgrLimit : Value) (qf : Filter)
    (many : Bool) (sortSpec : Option (String × Int)) (removeFields : List String)
    (limitArg : Value) (e : PyError) (h : convertIdField qf = .error e) :
    find store mgrSkip mgrLimit qf many sortSpec removeFields limitArg = .error e := by
  simp [find, parseQueryFilter, h, bind, Except.bind]

/-- Whenever `find` succeeds, the caller's filter dict holds exactly what
the id conversion produced. -/
theorem find_ok_filterAfter (store : Store) (mgrSkip mgrLimit : Value) (qf qfc : Filter)
    (many : Bool) (sortSpec : Option (String × Int)) (removeFields : List String)
    (limitArg : Value) (res : FindResult)
    (hc : convertIdField qf = .ok qfc)
    (h : find store mgrSkip mgrLimit qf many sortSpec removeFields limitArg = .ok res) :
    res.filterAfter = qfc := by
  simp only [find, parseQueryFilter, hc, bind, Except.bind] at h
  repeat' split at h
  all_goals first
    | (simp only [pure, Except.pure, Except.ok.injEq] at h; cases h; rfl)
    | simp at h

/-- Whenever `find` succeeds, the queryset's `total` is the matching count
of the converted filter, whatever `skip`/`limit` held. -/
theorem find_ok_total (store : Store) (mgrSkip mgrLimit : Value) (qf qfc : Filter)
    (many : Bool) (sortSpec : Option (String × Int)) (removeFields : List String)
    (limitArg : Value) (res : FindResult)
    (hc : convertIdField qf = .ok qfc)
    (h : find store mgrSkip mgrLimit qf many sortSpec removeFields limitArg = .ok res) :
    res.queryset.total = countDocuments store qfc := by
  simp only [find, parseQueryFilter, hc, bind, Except.bind] at h
  repeat' split at h
  all_goals first
    | (simp only [pure, Except.pure, Except.ok.injEq] at h; cases h; rfl)
    | simp at h

/-- With a successful id conversion, `update` runs `update_one` on the
converted filter and hands back the mutated filter dict. -/
theorem update_unfold (store : Store) (qf qfc : Filter) (data : Doc)
    (hc : convertIdField qf = .ok qfc) :
    update store qf data =
      .ok ⟨(storeUpdateOne store qfc data).1, (storeUpdateOne store qfc data).2, qfc, .one⟩ := by
  simp [update, hc, bind, Except.bind, pure, Except.pure, updateDispatch]

/-- An exception from the id conversion propagates out of `update`. -/
theorem update_err (store : Store) (qf : Filter) (data : Doc) (e : PyError)
    (hc : convertIdField qf = .error e) :
    update store qf data = .error e := by
  simp [update, hc, bind, Except.bind]

/-- With a successful id conversion, `delete` runs `delete_one` on the
converted filter and hands back the mutated filter dict. -/
theorem delete_unfold (store : Store) (qf qfc : Filter)
    (hc : convertIdField qf = .ok qfc) :
    delete store qf =
      .ok ⟨(storeDeleteOne store qfc).1, (storeDeleteOne store qfc).2, qfc⟩ := by
  simp [delete, hc, bind, Except.bind, pure, Except.pure]

/-- An exception from the id conversion propagates out of `delete`. -/
theorem delete_err (store : Store) (qf : Filter) (e : PyError)
    (hc : convertIdField qf = .error e) :
    delete store qf = .error e := by
  simp [delete, hc, bind, Except.bind]

/-- C1: the claim states that some pair of update payloads differing in
shape/size dispatches differently (one to `update_many`, the other to
`update_one`).  False: the length check runs on the rebound payload
`{"$set": data}`, which always has exactly one key, so no two payloads can
dispatch differently. -/
theorem c1_counterexample :
    ¬ ∃ d1 d2 : Doc, updateDispatch d1 ≠ updateDispatch d2 := by
  rintro ⟨d1, d2, h⟩
  exact h rfl

/-- C1 (amended): in `MotorModelManager.update` the one-vs-many decision
inspects the wrapped update document `{"$set": data}`, whose length is
always 1, so every update payload — whatever its shape or size — dispatches
to the single-document `update_one`; the `update_many` branch is
unreachable. -/
theorem c1_dispatch_always_single (store : Store) (qf : Filter) (data : Doc)
    (res : UpdateResult) (h : update store qf data = .ok res) :
    res.kind = .one ∧ updateDispatch data = .one := by
  refine ⟨?_, rfl⟩
  cases hc : convertIdField qf with
  | ok qfc =>
    rw [update_unfold store qf qfc data hc] at h
    cases h
    rfl
  | error e => rw [update_err store qf data e hc] at h; cases h

/-- C1 witness: a two-field payload — larger than a one-field one — still
dispatches to `update_one`. -/
theorem c1_dispatch_always_single_witness :
    update [] [] [("a", Value.vint 1), ("b", Value.vint 2)] =
      .ok ⟨⟨0, 0⟩, [], [], .one⟩ ∧
    (⟨⟨0, 0⟩, ([] : Store), ([] : Filter), UpdateKind.one⟩ : UpdateResult).kind = .one ∧
    updateDispatch [("a", Value.vint 1), ("b", Value.vint 2)] = .one := by
  refine ⟨rfl, ?_⟩
  exact c1_dispatch_always_single [] [] [("a", Value.vint 1), ("b", Value.vint 2)] _ rfl

/-- C3: deleting a nonexistent identity.  On an empty collection the
driver reports `deleted_count = 0`, but the handler's guard
`if not result:` tests the truthiness of the `DeleteResult` object — which
is always truthy — so the 400 branch is dead and the handler answers
HTTP 200 with the identity, contradicting the documented 400-class
outcome. -/
theorem c3_delete_nonexistent_returns_200 :
    delete ([] : Store) [("_id", Value.vstr sampleOid)] =
      .ok ⟨⟨0⟩, [], [("_id", Value.voidv sampleOid)]⟩ ∧
    deleteResultTruthy ⟨0⟩ = true ∧
    deleteHandler [] sampleOid = .ok ⟨.vdoc [("_id", Value.vstr sampleOid)], 200⟩ :=
  ⟨rfl, rfl, rfl⟩

/-- C7: `create` strips any client-supplied `_id` from the storage
representation (the popped data has no `_id`; the stored document's `_id`
is the server-generated one), stamps the generated identity back onto the
returned mapping as text, and keeps every other client field. -/
theorem c7_create_strips_and_stamps (m : Doc) (gid : String)
    (hnd : (m.map Prod.fst).Nodup) :
    dictGet (dictErase m "_id") "_id" = none ∧
    dictGet (create m gid).stored "_id" = some (.voidv gid) ∧
    dictGet (create m gid).returned "_id" = some (.vstr gid) ∧
    ∀ k, k ≠ "_id" → dictGet (create m gid).returned k = dictGet m k := by
  refine ⟨dictGet_dictErase_self m "_id" hnd, ?_, ?_, ?_⟩
  · exact dictGet_dictSet_self _ _ _
  · exact dictGet_dictSet_self _ _ _
  · intro k hk
    calc dictGet (create m gid).returned k
        = dictGet (dictErase m "_id") k := dictGet_dictSet_ne _ _ _ _ hk
      _ = dictGet m k := dictGet_dictErase_ne _ _ _ hk

/-- All-passing permission checks produce the full in-order trace and no
response, whatever start index the recursion carries. -/
theorem checkPermissionsFrom_all_ok (perms : List PermCheck)
    (h : ∀ p ∈ perms, p.ok = true) : ∀ i,
    checkPermissionsFrom i perms =
      ((List.range perms.length).map (fun j => Stage.permCheck (i + j)), none) := by
  induction perms with
  | nil => intro i; simp [checkPermissionsFrom]
  | cons q rest ih =>
    intro i
    have hq : q.ok = true := h q (List.mem_cons_self q rest)
    have hrest : ∀ p ∈ rest, p.ok = true := fun p hp => h p (List.mem_cons_of_mem q hp)
    simp only [checkPermissionsFrom, hq, if_true, ih hrest (i + 1), Prod.mk.injEq]
    refine ⟨?_, trivial⟩
    rw [List.length_cons, List.range_succ_eq_map, List.map_cons, List.map_map]
    congr 1
    simp only [List.map_inj_left, Function.comp_apply, Stage.permCheck.injEq]
    intro a _
    omega

/-- The first failing permission check (in `find?` order) decides the 403
response of `check_permissions`. -/
theorem checkPermissionsFrom_first_fail (perms : List PermCheck) (p : PermCheck)
    (h : perms.find? (fun q => !q.ok) = some p) : ∀ i,
    (checkPermissionsFrom i perms).2 = some ⟨p.message, 403⟩ := by
  induction perms with
  | nil => simp [List.find?] at h
  | cons q rest ih =>
    intro i
    by_cases hq : q.ok = true
    · have hfind : rest.find? (fun r => !r.ok) = some p := by
        simpa [List.find?, hq] using h
      simp [checkPermissionsFrom, hq, ih hfind (i + 1)]
    · have hq' : q.ok = false := by simpa using hq
      have hpq : p = q := by
        simp [List.find?, hq'] at h
        exact h.symm
      subst hpq
      simp [checkPermissionsFrom, hq']

/-- `check_permissions` never invokes the authenticator: its trace holds
only permission-check stages. -/
theorem checkPermissionsFrom_no_auth (perms : List PermCheck) : ∀ i,
    Stage.authenticate ∉ (checkPermissionsFrom i perms).1 := by
  induction perms with
  | nil => intro i; simp [checkPermissionsFrom]
  | cons q rest ih =>
    intro i
    by_cases hq : q.ok = true
    · simp [checkPermissionsFrom, hq, ih (i + 1)]
    · have hq' : q.ok = false := by simpa using hq
      simp [checkPermissionsFrom, hq']

/-- C2: the claim states the authenticator runs first and its failure
short-circuits with 401 before any permission check.  A request whose
authenticator would fail and whose sole permission check also fails is
answered 403 with the permission's message, and the authenticator is never
invoked — `prepare` runs `check_permissions` before
`check_authentication`. -/
theorem c2_counterexample :
    prepare [] ⟨false, .vstr "unauthenticated"⟩ [⟨false, .vstr "permission denied"⟩] =
      (⟨[], .vint 0, .vint 20⟩, [Stage.permCheck 0], some ⟨.vstr "permission denied", 403⟩) ∧
    Stage.authenticate ∉ [Stage.permCheck 0] :=
  ⟨rfl, by decide⟩

/-- C2 (amended): for every request, the collection-level permission
checks run before the authentication stage.  When every permission check
passes, the trace is all permission checks followed by the authenticator,
and an authentication failure then short-circuits with 401 and the
authenticator's message; when some permission check fails, the first
failure short-circuits with 403 and that check's message, and the
authenticator is never invoked. -/
theorem c2_permissions_run_before_authentication
    (rawArgs : List (String × List String)) (auth : Authenticator)
    (perms : List PermCheck) :
    ((∀ p ∈ perms, p.ok = true) →
      (prepare rawArgs auth perms).2.1 =
        (List.range perms.length).map Stage.permCheck ++ [Stage.authenticate] ∧
      (auth.ok = false →
        (prepare rawArgs auth perms).2.2 = some ⟨auth.unauthorizedMessage, 401⟩))
    ∧ (∀ p, perms.find? (fun q => !q.ok) = some p →
        (prepare rawArgs auth perms).2.2 = some ⟨p.message, 403⟩ ∧
        Stage.authenticate ∉ (prepare rawArgs auth perms).2.1) := by
  constructor
  · intro hall
    have hchk := checkPermissionsFrom_all_ok perms hall 0
    simp only [prepare, hchk, checkAuthentication]
    constructor
    · simp
    · intro hauth
      simp [hauth]
  · intro p hfind
    rcases hchk : checkPermissionsFrom 0 perms with ⟨trP, rP⟩
    have h2 := checkPermissionsFrom_first_fail perms p hfind 0
    rw [hchk] at h2
    have h3 := checkPermissionsFrom_no_auth perms 0
    rw [hchk] at h3
    simp only at h2 h3
    subst h2
    simp [prepare, hchk, h3]

/-- C2 witness: one run with a passing check and a failing authenticator
(401 after the check), one with a failing check (403, authenticator never
invoked). -/
theorem c2_permissions_run_before_authentication_witness :
    (prepare [] ⟨false, .vstr "unauthorized"⟩ [⟨true, .vstr "forbidden"⟩]).2.1 =
      (List.range 1).map Stage.permCheck ++ [Stage.authenticate] ∧
    (prepare [] ⟨false, .vstr "unauthorized"⟩ [⟨true, .vstr "forbidden"⟩]).2.2 =
      some ⟨.vstr "unauthorized", 401⟩ ∧
    (prepare [] ⟨true, .vstr "unauthorized"⟩ [⟨false, .vstr "forbidden"⟩]).2.2 =
      some ⟨.vstr "forbidden", 403⟩ ∧
    Stage.authenticate ∉ (prepare [] ⟨true, .vstr "unauthorized"⟩ [⟨false, .vstr "forbidden"⟩]).2.1 := by
  have h1 := (c2_permissions_run_before_authentication []
    ⟨false, .vstr "unauthorized"⟩ [⟨true, .vstr "forbidden"⟩]).1 (by simp)
  have h2 := (c2_permissions_run_before_authentication []
    ⟨true, .vstr "unauthorized"⟩ [⟨false, .vstr "forbidden"⟩]).2
    ⟨false, .vstr "forbidden"⟩ rfl
  exact ⟨h1.1, h1.2 rfl, h2.1, h2.2⟩

/-- C4: the claim says pages 0 and 100 both yield an empty results list.
On 45 documents with page size 20, requesting `?page=0` leaves the
manager's skip falsy, so nothing is skipped and the response carries the
first 20 documents — a non-empty results list. -/
theorem c4_counterexample :
    listPipeline store45 [] [("page", ["0"])] authPass [] =
      .ok (.page ⟨45, some 2, none, (store45.take 20).map Value.vdoc⟩ 200) ∧
    ((store45.take 20).map Value.vdoc).length = 20 :=
  ⟨rfl, rfl⟩

/-- C4 (amended): with total 45 and page size 20, requesting page 100
skips past every document and yields an empty results list, while
requesting page 0 yields the first 20 documents; in both cases a normal
200 response is produced and no pagination exception escapes (the
pagination always runs at page 1, which is in range, and `EmptyPage` /
`ValueError` would be caught regardless). -/
theorem c4_out_of_range_pages :
    listPipeline store45 [] [("page", ["100"])] authPass [] =
      .ok (.page ⟨45, some 2, none, []⟩ 200) ∧
    listPipeline store45 [] [("page", ["0"])] authPass [] =
      .ok (.page ⟨45, some 2, none, (store45.take 20).map Value.vdoc⟩ 200) :=
  ⟨rfl, rfl⟩

/-- C5: query-string parsing.  `status=1,2,3` parses to the integer list
filter, `status=a,b` keeps the strings, `user__id=5` becomes a dotted key
with an integer value; in general the key's `__` becomes `.`, a value
whose comma-separated elements all parse as ints becomes an int or list of
ints, and otherwise the original string(s) are kept. -/
theorem c5_query_string_parsing :
    extract_query_args [("status", ["1,2,3"])] =
      [("status", .vlist [.vint 1, .vint 2, .vint 3])] ∧
    extract_query_args [("status", ["a,b"])] =
      [("status", .vlist [.vstr "a", .vstr "b"])] ∧
    extract_query_args [("user__id", ["5"])] = [("user.id", .vint 5)] ∧
    (∀ k raw, extract_query_args [(k, [raw])] =
      [(pyReplaceDunder k, parseQueryValue raw)]) ∧
    (∀ raw ns, (pySplitComma raw).mapM pythonInt = some ns →
      parseQueryValue raw =
        match ns with
        | [n] => .vint n
        | _ => .vlist (ns.map Value.vint)) ∧
    (∀ raw, (pySplitComma raw).mapM pythonInt = none →
      parseQueryValue raw =
        match pySplitComma raw with
        | [s] => .vstr s
        | parts => .vlist (parts.map Value.vstr)) := by
  refine ⟨rfl, rfl, rfl, ?_, ?_, ?_⟩
  · intro k raw
    simp [extract_query_args, dictSet]
  · intro raw ns h
    simp only [parseQueryValue, h]
  · intro raw h
    simp only [parseQueryValue, h]
    cases hp : pySplitComma raw with
    | nil => rfl
    | cons a l =>
      cases l with
      | nil => rfl
      | cons b m => rfl

/-- C5 witness: the general clauses at concrete inputs `7,8` (all-int) and
`x` (not an int). -/
theorem c5_query_string_parsing_witness :
    extract_query_args [("flag", ["7,8"])] = [("flag", .vlist [.vint 7, .vint 8])] ∧
    parseQueryValue "7,8" = .vlist [.vint 7, .vint 8] ∧
    parseQueryValue "x" = .vstr "x" :=
  ⟨(c5_query_string_parsing.2.2.2.1 "flag" "7,8").trans rfl,
   c5_query_string_parsing.2.2.2.2.1 "7,8" [7, 8] rfl,
   c5_query_string_parsing.2.2.2.2.2 "x" rfl⟩

/-- C7 witness: a model object arriving with a client-supplied `_id`. -/
theorem c7_create_strips_and_stamps_witness :
    dictGet (dictErase [("_id", Value.vstr "client"), ("name", Value.vstr "bob")] "_id") "_id" = none ∧
    dictGet (create [("_id", Value.vstr "client"), ("name", Value.vstr "bob")] sampleOid).stored "_id" =
      some (.voidv sampleOid) ∧
    dictGet (create [("_id", Value.vstr "client"), ("name", Value.vstr "bob")] sampleOid).returned "_id" =
      some (.vstr sampleOid) ∧
    ∀ k, k ≠ "_id" →
      dictGet (create [("_id", Value.vstr "client"), ("name", Value.vstr "bob")] sampleOid).returned k =
        dictGet [("_id", Value.vstr "client"), ("name", Value.vstr "bob")] k :=
  c7_create_strips_and_stamps _ _ (by simp)

/-- C6: the claim states that a primary-identity key *present* in the
filter is always converted, and that a parse failure on a malformed
identity always raises a propagated validation error.  The empty string is
a malformed identity (`ObjectId("")` raises `InvalidId`), yet the
truthiness guard of `_convert_id_field` skips it: `delete`, `update` and
`find` run to completion with the unconverted `""` in the filter and no
error is raised. -/
theorem c6_counterexample :
    isValidOidString "" = false ∧
    objectIdOf (.vstr "") = .error .invalidId ∧
    find [[("x", Value.vint 1)]] .vnone .vnone [("_id", Value.vstr "")] =
      .ok ⟨⟨.many [], 0⟩, [("_id", Value.vstr "")]⟩ ∧
    update [[("x", Value.vint 1)]] [("_id", Value.vstr "")] [("y", Value.vint 2)] =
      .ok ⟨⟨0, 0⟩, [[("x", Value.vint 1)]], [("_id", Value.vstr "")], .one⟩ ∧
    delete [[("x", Value.vint 1)]] [("_id", Value.vstr "")] =
      .ok ⟨⟨0⟩, [[("x", Value.vint 1)]], [("_id", Value.vstr "")]⟩ :=
  ⟨rfl, rfl, rfl, rfl, rfl⟩

/-- C6 (amended): for a *truthy* (non-empty) textual identity, all three
filter-accepting operations (`find`, `update`, `delete`) behave uniformly:
a malformed identity makes the `ObjectId` constructor's `InvalidId` error
propagate out of the operation before any query runs, and a well-formed
identity is converted to the native ObjectId in the filter the operation
queries with; a falsy (empty-string) identity is passed through
unconverted without any error. -/
theorem c6_id_conversion (store : Store) (mgrSkip mgrLimit : Value)
    (qf : Filter) (data : Doc) (s : String)
    (h : dictGet qf "_id" = some (.vstr s)) (hs : s ≠ "") :
    (isValidOidString s = false →
      find store mgrSkip mgrLimit qf = .error .invalidId ∧
      update store qf data = .error .invalidId ∧
      delete store qf = .error .invalidId)
    ∧ (isValidOidString s = true →
      convertIdField qf = .ok (dictSet qf "_id" (.voidv (lowerAscii s))) ∧
      (∀ res, find store mgrSkip mgrLimit qf = .ok res →
        res.filterAfter = dictSet qf "_id" (.voidv (lowerAscii s))) ∧
      (∀ res, update store qf data = .ok res →
        res.filterAfter = dictSet qf "_id" (.voidv (lowerAscii s))) ∧
      (∀ res, delete store qf = .ok res →
        res.filterAfter = dictSet qf "_id" (.voidv (lowerAscii s)))) := by
  have hcv := convertIdField_truthy qf s h hs
  constructor
  · intro hinv
    have he : convertIdField qf = .error .invalidId := by
      rw [hcv]
      simp [objectIdOf, hinv, Except.map]
    exact ⟨find_err _ _ _ _ _ _ _ _ _ he, update_err _ _ _ _ he, delete_err _ _ _ he⟩
  · intro hval
    have hok : convertIdField qf = .ok (dictSet qf "_id" (.voidv (lowerAscii s))) := by
      rw [hcv]
      simp [objectIdOf, hval, Except.map]
    refine ⟨hok, ?_, ?_, ?_⟩
    · intro res hres
      exact find_ok_filterAfter _ _ _ _ _ _ _ _ _ _ hok hres
    · intro res hres
      rw [update_unfold _ _ _ _ hok] at hres
      cases hres
      rfl
    · intro res hres
      rw [delete_unfold _ _ _ hok] at hres
      cases hres
      rfl

/-- C6 witness: a malformed non-empty identity (`"ZZ"`) makes all three
operations raise, and a well-formed identity (uppercase hex) is converted
to its native, lowercased ObjectId form in the filter the delete queried
with. -/
theorem c6_id_conversion_witness :
    find [] .vnone .vnone [("_id", Value.vstr "ZZ")] = .error .invalidId ∧
    update [] [("_id", Value.vstr "ZZ")] [("y", Value.vint 2)] = .error .invalidId ∧
    delete [] [("_id", Value.vstr "ZZ")] = .error .invalidId ∧
    convertIdField [("_id", Value.vstr "0123456789ABCDEF01234567")] =
      .ok [("_id", Value.voidv sampleOid)] ∧
    (⟨⟨0⟩, [[("a", Value.vint 1)]], [("_id", Value.voidv sampleOid)]⟩ : DeleteResult).filterAfter =
      [("_id", Value.voidv sampleOid)] := by
  have h1 := (c6_id_conversion [] .vnone .vnone [("_id", Value.vstr "ZZ")]
    [("y", Value.vint 2)] "ZZ" rfl (by decide)).1 rfl
  have h2 := (c6_id_conversion [[("a", Value.vint 1)]] .vnone .vnone
    [("_id", Value.vstr "0123456789ABCDEF01234567")] [] "0123456789ABCDEF01234567"
    rfl (by decide)).2 rfl
  exact ⟨h1.1, h1.2.1, h1.2.2, h2.1, h2.2.2.2 _ rfl⟩

/-- C8: whatever values the manager's `skip`/`limit` fields and the
call-supplied `limit` hold, a successful `find` reports as `total` the
count of *all* documents matching the (converted) filter; two runs with
different pagination report the same `total`. -/
theorem c8_total_counts_all_matching (store : Store)
    (mgrSkip mgrLimit mgrSkip2 mgrLimit2 : Value) (qf qfc : Filter)
    (many : Bool) (sortSpec : Option (String × Int)) (removeFields : List String)
    (limitArg limitArg2 : Value) (res res2 : FindResult)
    (hc : convertIdField qf = .ok qfc)
    (h : find store mgrSkip mgrLimit qf many sortSpec removeFields limitArg = .ok res)
    (h2 : find store mgrSkip2 mgrLimit2 qf many sortSpec removeFields limitArg2 = .ok res2) :
    res.queryset.total = countDocuments store qfc ∧
    res2.queryset.total = res.queryset.total := by
  have t1 := find_ok_total _ _ _ _ _ _ _ _ _ _ hc h
  have t2 := find_ok_total _ _ _ _ _ _ _ _ _ _ hc h2
  exact ⟨t1, t2.trans t1.symm⟩

/-- C8 witness: two finds over the same three-document collection, one
with `skip=1, limit=1` (one document returned), one with no skip and no
limit (two documents returned) — both report `total = 2`. -/
theorem c8_total_counts_all_matching_witness :
    (⟨⟨.many [[("a", Value.vint 1)]], 2⟩, [("a", Value.vint 1)]⟩ : FindResult).queryset.total =
      countDocuments storeW [("a", Value.vint 1)] ∧
    (⟨⟨.many [[("a", Value.vint 1)], [("a", Value.vint 1)]], 2⟩,
        [("a", Value.vint 1)]⟩ : FindResult).queryset.total =
      (⟨⟨.many [[("a", Value.vint 1)]], 2⟩, [("a", Value.vint 1)]⟩ : FindResult).queryset.total :=
  c8_total_counts_all_matching storeW (.vint 1) (.vint 1) (.vint 0) .vnone
    [("a", Value.vint 1)] [("a", Value.vint 1)] true (some ("_id", -1)) [] .vnone .vnone
    _ _ rfl rfl rfl

/-- C10: `find`, `update` and `delete` leave the caller's filter dict
holding the converted value — a truthy textual identity is replaced in the
caller's mapping by the native ObjectId (the mapping really changes),
while a falsy identity value (such as the empty string) leaves the mapping
passed through unchanged. -/
theorem c10_filter_mutated_in_place (store : Store) (mgrSkip mgrLimit : Value)
    (qf : Filter) (data : Doc) (v : Value) (h : dictGet qf "_id" = some v) :
    (pyTruthy v = false →
      convertIdField qf = .ok qf ∧
      (∀ res, find store mgrSkip mgrLimit qf = .ok res → res.filterAfter = qf) ∧
      (∀ res, update store qf data = .ok res → res.filterAfter = qf) ∧
      (∀ res, delete store qf = .ok res → res.filterAfter = qf))
    ∧ (∀ s, v = .vstr s → isValidOidString s = true → pyTruthy v = true →
      convertIdField qf = .ok (dictSet qf "_id" (.voidv (lowerAscii s))) ∧
      dictSet qf "_id" (.voidv (lowerAscii s)) ≠ qf ∧
      (∀ res, find store mgrSkip mgrLimit qf = .ok res →
        res.filterAfter = dictSet qf "_id" (.voidv (lowerAscii s))) ∧
      (∀ res, update store qf data = .ok res →
        res.filterAfter = dictSet qf "_id" (.voidv (lowerAscii s))) ∧
      (∀ res, delete store qf = .ok res →
        res.filterAfter = dictSet qf "_id" (.voidv (lowerAscii s)))) := by
  constructor
  · intro hfalsy
    have hok : convertIdField qf = .ok qf := convertIdField_falsy qf v h hfalsy
    refine ⟨hok, ?_, ?_, ?_⟩
    · intro res hres
      exact find_ok_filterAfter _ _ _ _ _ _ _ _ _ _ hok hres
    · intro res hres
      rw [update_unfold _ _ _ _ hok] at hres
      cases hres
      rfl
    · intro res hres
      rw [delete_unfold _ _ _ hok] at hres
      cases hres
      rfl
  · intro s hv hval htruthy
    subst hv
    have hs : s ≠ "" := by simpa [pyTruthy] using htruthy
    have hcv := convertIdField_truthy qf s h hs
    have hok : convertIdField qf = .ok (dictSet qf "_id" (.voidv (lowerAscii s))) := by
      rw [hcv]
      simp [objectIdOf, hval, Except.map]
    refine ⟨hok, ?_, ?_, ?_, ?_⟩
    · intro heq
      have hget := dictGet_dictSet_self qf "_id" (.voidv (lowerAscii s))
      rw [heq, h] at hget
      simp at hget
    · intro res hres
      exact find_ok_filterAfter _ _ _ _ _ _ _ _ _ _ hok hres
    · intro res hres
      rw [update_unfold _ _ _ _ hok] at hres
      cases hres
      rfl
    · intro res hres
      rw [delete_unfold _ _ _ hok] at hres
      cases hres
      rfl

/-- C10 witness: a falsy empty-string identity survives a delete
unchanged; a truthy valid identity comes back from a find as the native,
no-longer-equal ObjectId value. -/
theorem c10_filter_mutated_in_place_witness :
    convertIdField [("_id", Value.vstr "")] = .ok [("_id", Value.vstr "")] ∧
    (⟨⟨0⟩, [], [("_id", Value.vstr "")]⟩ : DeleteResult).filterAfter =
      [("_id", Value.vstr "")] ∧
    convertIdField [("_id", Value.vstr sampleOid)] =
      .ok [("_id", Value.voidv sampleOid)] ∧
    [("_id", Value.voidv sampleOid)] ≠ [("_id", Value.vstr sampleOid)] ∧
    (⟨⟨.many [], 0⟩, [("_id", Value.voidv sampleOid)]⟩ : FindResult).filterAfter =
      [("_id", Value.voidv sampleOid)] := by
  have h1 := (c10_filter_mutated_in_place [] .vnone .vnone [("_id", Value.vstr "")]
    [] (.vstr "") rfl).1 rfl
  have h2 := (c10_filter_mutated_in_place [] .vnone .vnone [("_id", Value.vstr sampleOid)]
    [] (.vstr sampleOid) rfl).2 sampleOid rfl rfl rfl
  exact ⟨h1.1, h1.2.2.2 _ rfl, h2.1, h2.2.1, h2.2.2.1 _ rfl⟩

/-- The `skip` value `prepare` assigns is the raw page number: `0` is
falsy and sets no skip, any positive page skips exactly that many
documents. -/
theorem cursorSkipOpt_natCast (p : Nat) :
    cursorSkipOpt (.vint (p : Int)) = .ok (if p = 0 then none else some p) := by
  cases p with
  | zero => simp [cursorSkipOpt, pyTruthy, pure, Except.pure]
  | succ k =>
    have h1 : pyTruthy (Value.vint ((k : Int) + 1)) = true := by
      simp [pyTruthy]
      omega
    have h2 : ¬((k : Int) + 1) < 0 := by omega
    have h3 : ((k : Int) + 1).toNat = k + 1 := by omega
    simp [cursorSkipOpt, cursorSkipArg, h1, h2, h3, Except.map]

/-- A positive integral limit is applied as itself. -/
theorem cursorLimitOpt_pos (ps : Nat) (hps : 0 < ps) :
    cursorLimitOpt (.vint (ps : Int)) = .ok (some ps) := by
  have h1 : pyTruthy (Value.vint (ps : Int)) = true := by
    simp [pyTruthy]
    omega
  simp [cursorLimitOpt, h1, cursorLimitArg, Except.map]

/-- The call-site `limit=None` default sets no cursor limit. -/
theorem cursorLimitOpt_vnone : cursorLimitOpt .vnone = .ok none := by
  simp [cursorLimitOpt, pyTruthy, pure, Except.pure]

/-- Reduction of `find` as `list` invokes it: page `p` and page size
`ps > 0` in the manager's `skip`/`limit` produce the sorted matching
documents with `p` documents dropped (a raw document count) and `ps`
kept. -/
theorem find_reduce (store : Store) (publicFields : List String) (qf qfc : Filter)
    (p ps : Nat) (hc : convertIdField qf = .ok qfc) (hps : 0 < ps) :
    find store (.vint (p : Int)) (.vint (ps : Int)) qf true
      (some ("_id", -1)) publicFields .vnone =
      .ok ⟨⟨.many ((((applySort (some ("_id", -1)) (store.filter (docMatches qfc))).drop p).take ps).map
              (fun d => parseJsonDoc (projectOut publicFields d))), countDocuments store qfc⟩, qfc⟩ := by
  simp only [find, parseQueryFilter, hc, bind, Except.bind,
    cursorSkipOpt_natCast, cursorLimitOpt_pos ps hps, cursorLimitOpt_vnone, if_true]
  have hgd : (if p = 0 then none else some p).getD 0 = p := by cases p <;> simp
  simp [hgd, applyLimit, Option.orElse, pure, Except.pure, HOrElse.hOrElse, OrElse.orElse]

/-- Reduction of `paginate_response` at the default `current_page=1` the
`list` call site uses: with a positive integral page size, `previous` is
`None`, `next` is page 2 exactly when the page size is below the total,
and the results are the caller's rows (page 1 of an empty total falls into
the caught `EmptyPage`, yielding empty results). -/
theorem paginate_response_page1 (results : List Doc) (count ps : Nat) (hps : 0 < ps) :
    paginate_response ⟨.many results, count⟩ (.vint (ps : Int)) =
      .ok ⟨count, if (ps : Int) < (count : Int) then some 2 else none, none,
           if count = 0 then [] else results.map Value.vdoc⟩ := by
  have h1 : ¬(ps : Int) ≤ 0 := by omega
  by_cases hcount : count = 0
  · subst hcount
    have h3 : ((ps : Int) - 1) / (ps : Int) = 0 :=
      Int.ediv_eq_zero_of_lt (by omega) (by omega)
    have hpp : paginatorPage (results.map Value.vdoc) (.vint (ps : Int)) 0 1 = .error .emptyPage := by
      simp only [paginatorPage]
      rw [if_neg h1]
      simp [h3]
    have h4 : ¬(ps : Int) < 0 := by omega
    simp [paginate_response, pyTruthy, pyIntCoerce, qsValueAsList, bind, Except.bind,
      hpp, pure, Except.pure, h4]
  · have h2 : (1 : Int) ≤ ((count : Int) + ps - 1) / ps := by
      rw [Int.le_ediv_iff_mul_le (by omega : (0 : Int) < ps)]
      omega
    have hpp : paginatorPage (results.map Value.vdoc) (.vint (ps : Int)) count 1 =
        .ok ⟨results.map Value.vdoc, 1, ps, count⟩ := by
      simp only [paginatorPage]
      rw [if_neg h1]
      have hcond : ¬((1 : Int) < 1 ∨ 1 > ((count : Int) + ps - 1) / ps) := by
        push_neg
        exact ⟨le_refl 1, h2⟩
      simp only [gt_iff_lt, Bool.or_eq_true, decide_eq_true_eq]
      rw [if_neg hcond]
    simp [paginate_response, pyTruthy, pyIntCoerce, qsValueAsList, bind, Except.bind,
      hpp, pure, Except.pure, pageHasNext, pageNextNumber, one_mul, hcount]

/-- C9: for every list request with an integral requested page `p` and
positive page size `ps`, the response's navigation is computed as if the
current page were 1 — `previous` is always null and `next` points to page
2 exactly when the total exceeds the page size — regardless of `p`; the
requested page number only determines the documents skipped in the
database query, applied as a raw document count `p`, not
`(p - 1) * ps`. -/
theorem c9_navigation_fixed_to_page_one (store : Store) (publicFields : List String)
    (qf qfc : Filter) (p ps : Nat)
    (hc : convertIdField qf = .ok qfc) (hps : 0 < ps) :
    listCore store publicFields qf (.vint (p : Int)) (.vint (ps : Int)) =
      .ok (⟨countDocuments store qfc,
            if (ps : Int) < (countDocuments store qfc : Int) then some 2 else none,
            none,
            (((applySort (some ("_id", -1)) (store.filter (docMatches qfc))).drop p).take ps).map
              (fun d => Value.vdoc (parseJsonDoc (projectOut publicFields d)))⟩, 200) := by
  simp only [listCore, bind, Except.bind,
    find_reduce store publicFields qf qfc p ps hc hps,
    paginate_response_page1 _ _ _ hps, pure, Except.pure]
  by_cases h0 : countDocuments store qfc = 0
  · have hfil : store.filter (docMatches qfc) = [] := List.length_eq_zero.mp h0
    simp [h0, hfil, applySort, sortDocsBy]
  · simp [h0, List.map_map]
    rfl

/-- C9 witness: page 3 of the 45-document collection at page size 20. -/
theorem c9_navigation_fixed_to_page_one_witness :
    listCore store45 [] [] (.vint ((3 : Nat) : Int)) (.vint ((20 : Nat) : Int)) =
      .ok (⟨countDocuments store45 [],
            if ((20 : Nat) : Int) < (countDocuments store45 [] : Int) then some 2 else none,
            none,
            (((applySort (some ("_id", -1)) (store45.filter (docMatches []))).drop 3).take 20).map
              (fun d => Value.vdoc (parseJsonDoc (projectOut [] d)))⟩, 200) :=
  c9_navigation_fixed_to_page_one store45 [] [] [] 3 20 rfl (by decide)

end TornadoHelpers
